import Mathlib

/-!
Verification of the ArabSeed downloader's core behaviors against its
specification.  The frontend pages (`frontend/app/page.tsx`,
`frontend/app/tracked/[id]/episodes/page.tsx`) are embedded directly;
the backend engines (link resolution, change detection, reconciliation,
file placement) are not part of the source tree, so their operations are
modelled from the spec where a claim needs them.
-/

namespace ASD

/-- Content kind of a tracked item (`movie` | `series`). -/
inductive ContentType where
  | movie
  | series
deriving DecidableEq, Repr

/-- One episode row as consumed by the episodes page: id, season,
episode number, title and downloaded flag. -/
structure Episode where
  id : Nat
  season : Nat
  episode_number : Nat
  title : String
  downloaded : Bool
deriving DecidableEq, Repr

/-! ### Episodes page (`frontend/app/tracked/[id]/episodes/page.tsx`) -/

/-- JS `String.prototype.padStart(w, c)`: pad on the left with `c` up to
width `w`; a string already at least `w` long is returned unchanged. -/
def padStart (s : String) (w : Nat) (c : Char) : String :=
  String.mk (List.replicate (w - s.length) c) ++ s

/-- The episode label rendered by the episodes table:
`E{episode.episode_number.toString().padStart(2, "0")}`
(episodes page, line 130). -/
def episodeLabel (n : Nat) : String :=
  "E" ++ padStart (toString n) 2 '0'

/-- Zero-pad a number to width 2, as the placement template's `{NN}` /
`{MM}` fields require. -/
def pad2 (n : Nat) : String :=
  padStart (toString n) 2 '0'

/-- `acc[season].push(episode)` on the one pair whose key is the
episode's season; other pairs are unchanged. -/
def pushEpisode (e : Episode) (p : Nat × List Episode) :
    Nat × List Episode :=
  if p.1 == e.season then (p.1, p.2 ++ [e]) else p

/-- Whether the accumulator object already has a property for season
`s` (the `if (!acc[season])` test). -/
def hasSeasonKey (acc : List (Nat × List Episode)) (s : Nat) : Bool :=
  acc.any (fun p => p.1 == s)

/-- One step of the `episodes.reduce` grouping (episodes page, lines
64–71): push the episode onto the bucket of its own season, creating
the bucket when the key is not yet present.  The accumulator object is
embedded as an association list of (season, bucket) pairs. -/
def addToSeason (acc : List (Nat × List Episode)) (e : Episode) :
    List (Nat × List Episode) :=
  if hasSeasonKey acc e.season then acc.map (pushEpisode e)
  else acc ++ [(e.season, [e])]

/-- `episodesBySeason` (episodes page, lines 64–71): group the episode
list by season via `reduce`. -/
def episodesBySeason (episodes : List Episode) : List (Nat × List Episode) :=
  episodes.foldl addToSeason []

/-- Look up the bucket of season `s` in the grouped structure (the
object access `acc[season]`). -/
def seasonBucket (groups : List (Nat × List Episode)) (s : Nat) :
    List Episode :=
  match groups.find? (fun p => p.1 == s) with
  | some p => p.2
  | none => []

/-- The season groups in render order (episodes page, lines 107–128):
`Object.entries(episodesBySeason).sort(([a],[b]) => parseInt(a) -
parseInt(b))`, with each group's episodes sorted by
`(a, b) => a.episode_number - b.episode_number`. -/
def renderedGroups (episodes : List Episode) : List (Nat × List Episode) :=
  ((episodesBySeason episodes).insertionSort (fun a b => a.1 ≤ b.1)).map
    (fun p =>
      (p.1, p.2.insertionSort
        (fun a b => a.episode_number ≤ b.episode_number)))

/-! ### File Placement Engine (modelled from the spec) -/

/-- Modelled from the spec: the File Placement Engine's title
sanitization ("sanitize the title by removing characters invalid for the
target filesystem and collapsing whitespace"); the engine itself is not
in the source tree. -/
def sanitizeTitle (title : String) : String :=
  let invalid : List Char := ['<', '>', ':', '"', '/', '\\', '|', '?', '*']
  let kept := title.data.filter (fun ch => ¬ invalid.contains ch)
  String.mk (kept.foldr
    (fun ch acc =>
      if ch = ' ' then
        match acc with
        | ' ' :: _ => acc
        | _ => ch :: acc
      else ch :: acc) [])

/-- Modelled from the spec: the File Placement Engine's series
destination `{seriesRoot}/{SanitizedTitle}/Season {NN}/{SanitizedTitle}
- S{NN}E{MM}.{ext}` with NN, MM zero-padded to width 2; the engine
itself is not in the source tree. -/
def seriesDestination (seriesRoot title : String) (season episodeNum : Nat)
    (ext : String) : String :=
  let t := sanitizeTitle title
  seriesRoot ++ "/" ++ t ++ "/Season " ++ pad2 season ++ "/" ++ t ++
    " - S" ++ pad2 season ++ "E" ++ pad2 episodeNum ++ "." ++ ext

/-! ### Search page (`frontend/app/page.tsx`) -/

/-- The season-selection toggle (search page, lines 480–484):
`setSelectedSeasons((prev) => prev.includes(s) ? prev.filter((x) => x
!== s) : [...prev, s])`. -/
def toggleSeason (s : Nat) (prev : List Nat) : List Nat :=
  if prev.contains s then prev.filter (fun x => x ≠ s) else prev ++ [s]

/-- Action sent by the tracking-update flow. -/
inductive TrackingAction where
  | track
  | untrack
deriving DecidableEq, Repr

/-- The arguments `handleUpdateTracking` passes to
`updateTrackingStatus`. -/
structure TrackingUpdate where
  action : TrackingAction
  seasons : Option (List Nat)
deriving DecidableEq, Repr

/-- The action/seasons computation of `handleUpdateTracking` (search
page, lines 153–172): `seasons` is the selected-season list for series
(`undefined` for movies); a tracked item with an empty selection is
untracked with `seasons = []`; otherwise the action is `track`. -/
def handleUpdateTracking (itemType : ContentType) (isTracked : Bool)
    (selectedSeasons : List Nat) : TrackingUpdate :=
  let seasons : Option (List Nat) :=
    if itemType = .series then some selectedSeasons else none
  if isTracked then
    if selectedSeasons.length = 0 then
      { action := .untrack, seasons := some [] }
    else
      { action := .track, seasons := seasons }
  else
    { action := .track, seasons := seasons }

/-- The `disabled` condition of the series tracking confirm button
(search page, line 615):
`isUpdatingTracking || selectedSeasons.length === 0`. -/
def confirmButtonDisabled (isUpdatingTracking : Bool)
    (selectedSeasons : List Nat) : Bool :=
  isUpdatingTracking || selectedSeasons.length == 0

/-! ### Link Resolution State Machine (modelled from the spec) -/

/-- Typed failures of the Link Resolution State Machine (spec §4.1/§7). -/
inductive ResolutionFailure where
  | qualityUnavailable
  | serverUnavailable
  | adInterceptionExceeded
  | timedOut
  | extractionFailed
deriving DecidableEq, Repr

/-- Modelled from the spec: the `Start → QualitySelected` transition
("select the requested quality option; fails with `QualityUnavailable`
if absent"); the resolution engine is not in the source tree. -/
def selectQuality (available : List String) (requested : String) :
    Except ResolutionFailure String :=
  if available.contains requested then .ok requested
  else .error .qualityUnavailable

/-- Outcome of one click attempt as the machine observes it: either no
new window appeared within the bounded wait, or a new window with the
given target host appeared. -/
inductive ClickObservation where
  | noWindow
  | newWindow (host : String)
deriving DecidableEq, Repr

/-- Result of the click-with-ad-handling step. -/
inductive ClickResult where
  | proceeded
  | adInterceptionExceeded
deriving DecidableEq, Repr

/-- Modelled from the spec: one click that may trigger a new window
(spec §4.1: "matching windows are closed and the triggering click is
retried exactly once before failing with `AdInterceptionExceeded`");
the resolution engine is not in the source tree.  `observe i` is what
the `i`-th click of this step observes; returns the result together
with the number of clicks performed. -/
def clickStep (adDomains : List String)
    (observe : Nat → ClickObservation) : ClickResult × Nat :=
  match observe 0 with
  | .noWindow => (.proceeded, 1)
  | .newWindow host =>
      if adDomains.contains host then
        -- close the ad window, then retry the triggering click once
        match observe 1 with
        | .noWindow => (.proceeded, 2)
        | .newWindow host' =>
            if adDomains.contains host' then (.adInterceptionExceeded, 2)
            else (.proceeded, 2)
      else (.proceeded, 1)

/-- The states of the Link Resolution State Machine (spec §4.1). -/
inductive RState where
  | start
  | qualitySelected
  | serverSelected
  | gate1Pending
  | gate2Pending
  | shortCircuitDetected
  | linkExtracted
  | done
deriving DecidableEq, Repr

/-- Modelled from the spec: the happy-path transition function of the
Link Resolution State Machine, parameterized by whether the
short-circuit marker (the specific query parameter) is present on the
page reached after Gate1 (spec §4.1: "If present, it transitions
directly to `LinkExtracted` (variant B); otherwise it proceeds through
Gate2 (variant A)"); the machine is not in the source tree. -/
def rStep (marker : Bool) : RState → RState
  | .start => .qualitySelected
  | .qualitySelected => .serverSelected
  | .serverSelected => .gate1Pending
  | .gate1Pending => if marker then .shortCircuitDetected else .gate2Pending
  | .shortCircuitDetected => .linkExtracted
  | .gate2Pending => .linkExtracted
  | .linkExtracted => .done
  | .done => .done

/-- The sequence of states visited in the first `n` steps of a run
from `s`. -/
def rTrace (marker : Bool) (s : RState) : Nat → List RState
  | 0 => [s]
  | n + 1 => s :: rTrace marker (rStep marker s) n

/-! ### Episode Change Detector (modelled from the spec) -/

/-- An episode descriptor as returned by the Source Discovery
collaborator's `listEpisodes` (spec §6). -/
structure EpisodeDescriptor where
  seasonNumber : Nat
  episodeNumber : Nat
  title : String
  url : String
deriving DecidableEq, Repr

/-- Modelled from the spec: the Change Detector's season filter
("filtered by the item's selected-season set (empty selection = no
seasons wanted → no candidates; absent/all-seasons sentinel = all)");
the detector is not in the source tree.  `none` is the all-seasons
sentinel. -/
def filterBySeasonSelection (selection : Option (List Nat))
    (candidates : List EpisodeDescriptor) : List EpisodeDescriptor :=
  match selection with
  | none => candidates
  | some seasons =>
      candidates.filter (fun e => seasons.contains e.seasonNumber)

/-- A persisted Episode row of one TrackedItem's catalog, as the Change
Detector sees it: source URL (the natural key) plus the observed
numbers/title and the downloaded flag (spec §3). -/
structure EpisodeRow where
  url : String
  seasonNumber : Nat
  episodeNumber : Nat
  title : String
  downloaded : Bool
deriving DecidableEq, Repr

/-- Modelled from the spec: one unique-key upsert of the Change Detector
("set difference keyed by source URL … unique-key upsert semantics"): a
descriptor whose URL is already in the item's catalog is skipped,
otherwise a new row with `downloaded = false` is appended; the detector
is not in the source tree. -/
def upsertEpisode (catalog : List EpisodeRow) (d : EpisodeDescriptor) :
    List EpisodeRow :=
  if catalog.any (fun e => e.url == d.url) then catalog
  else catalog ++ [⟨d.url, d.seasonNumber, d.episodeNumber, d.title, false⟩]

/-- Modelled from the spec: one detection run for one TrackedItem,
upserting every descriptor observed at the source into the item's
Episode catalog; the detector is not in the source tree. -/
def detectEpisodes (catalog : List EpisodeRow)
    (observed : List EpisodeDescriptor) : List EpisodeRow :=
  observed.foldl upsertEpisode catalog

/-- Whether some row of the catalog already has source URL `u`. -/
def hasUrl (catalog : List EpisodeRow) (u : String) : Bool :=
  catalog.any (fun e => e.url == u)

/-- The catalog invariant of spec §3: no two Episode rows of the same
TrackedItem share a source URL. -/
def UniqueByUrl (catalog : List EpisodeRow) : Prop :=
  ∀ u, (catalog.filter (fun e => e.url == u)).length ≤ 1

/-! ### Download Submission & Reconciliation Engine (modelled from the spec) -/

/-- DownloadRecord lifecycle status (spec §3). -/
inductive DownloadStatus where
  | pending
  | in_progress
  | completed
  | failed
deriving DecidableEq, Repr

/-- A status is non-terminal when it is `pending` or `in_progress`. -/
def DownloadStatus.isNonTerminal : DownloadStatus → Bool
  | .pending => true
  | .in_progress => true
  | .completed => false
  | .failed => false

/-- A DownloadRecord: target reference (Episode id, or TrackedItem id
for a movie) and lifecycle status (spec §3). -/
structure DownloadRecord where
  target : Nat
  status : DownloadStatus
deriving DecidableEq, Repr

/-- Whether some DownloadRecord for `target` is in a non-terminal
state. -/
def hasActiveRecord (records : List DownloadRecord) (target : Nat) : Bool :=
  records.any (fun r => r.target == target && r.status.isNonTerminal)

/-- The at-most-one-active invariant of spec §3: for every target, at
most one DownloadRecord is in a non-terminal state. -/
def AtMostOneActive (records : List DownloadRecord) : Prop :=
  ∀ t, (records.filter
    (fun r => r.target == t && r.status.isNonTerminal)).length ≤ 1

/-- Modelled from the spec: the Reconciliation Engine's submission path
(spec §4.3: "first check the at-most-one-active invariant; if a
non-terminal record already exists for the target, skip (idempotent
no-op). Otherwise … call the external download manager's add-link
operation … create a DownloadRecord with status `pending`"); the engine
is not in the source tree.  Returns the new record list and the number
of external `addLink` calls made. -/
def submitDownload (records : List DownloadRecord) (target : Nat) :
    List DownloadRecord × Nat :=
  if hasActiveRecord records target then (records, 0)
  else (records ++ [⟨target, .pending⟩], 1)

/-! ## Theorems -/

/-- String append acts as list append on the underlying character
data. -/
theorem string_data_append (a b : String) :
    (a ++ b).data = a.data ++ b.data := rfl

/-- C3: series file naming is deterministic with zero-padding to width
2 for season and episode numbers: for every series root, the destination
computed for series title "Example Show", season 2, episode 5, extension
"mp4" is `{seriesRoot}/Example Show/Season 02/Example Show - S02E05.mp4`;
`pad2` pads every number below 100 to exactly width 2; and the episodes
table renders the same width-2 zero-padded episode label
`E{episode_number.toString().padStart(2, "0")}`. -/
theorem seriesNaming_deterministic_zeroPadded :
    (∀ seriesRoot : String,
      seriesDestination seriesRoot "Example Show" 2 5 "mp4"
        = seriesRoot ++ "/Example Show/Season 02/Example Show - S02E05.mp4")
    ∧ (∀ n : Nat, n < 100 → (pad2 n).length = 2)
    ∧ (∀ n : Nat, episodeLabel n = "E" ++ pad2 n) := by
  refine ⟨?_, ?_, ?_⟩
  · intro seriesRoot
    refine String.ext ?_
    simp only [seriesDestination, string_data_append, List.append_assoc]
    congr 1
  · decide
  · intro n; rfl

/-- Witness for `seriesNaming_deterministic_zeroPadded` at season 2,
episode 5. -/
theorem seriesNaming_deterministic_zeroPadded_witness :
    seriesDestination "/media/series" "Example Show" 2 5 "mp4"
      = "/media/series" ++ "/Example Show/Season 02/Example Show - S02E05.mp4"
    ∧ (pad2 5).length = 2 :=
  ⟨seriesNaming_deterministic_zeroPadded.1 "/media/series",
   seriesNaming_deterministic_zeroPadded.2.1 5 (by decide)⟩

/-- C6: the `Start → QualitySelected` transition selects the requested
quality option exactly when it is offered, and returns the
`QualityUnavailable` failure (never some other quality) when it is
absent. -/
theorem selectQuality_requested_or_unavailable
    (available : List String) (requested : String) :
    (requested ∉ available →
      selectQuality available requested = .error .qualityUnavailable)
    ∧ (requested ∈ available →
      selectQuality available requested = .ok requested) := by
  constructor <;> intro h <;> simp [selectQuality, h]

/-- Witness for `selectQuality_requested_or_unavailable`: "1080" absent
from the offered list fails, "720" present succeeds. -/
theorem selectQuality_requested_or_unavailable_witness :
    selectQuality ["720", "480"] "1080" = .error .qualityUnavailable
    ∧ selectQuality ["720", "480"] "720" = .ok "720" :=
  ⟨(selectQuality_requested_or_unavailable ["720", "480"] "1080").1 (by decide),
   (selectQuality_requested_or_unavailable ["720", "480"] "720").2 (by decide)⟩

/-- C7: an empty selected-season set means no seasons are wanted: the
change-detection season filter yields no candidates for an empty
selection, and `handleUpdateTracking` on a currently tracked series with
an empty selection computes an `untrack` action carrying an empty season
list. -/
theorem emptySeasonSelection_noCandidates_untrack
    (candidates : List EpisodeDescriptor) :
    filterBySeasonSelection (some []) candidates = []
    ∧ handleUpdateTracking .series true []
        = { action := .untrack, seasons := some [] } := by
  refine ⟨?_, rfl⟩
  simp [filterBySeasonSelection]

/-- C9: whenever the series tracking confirm button is enabled (not
disabled), the update computed by `handleUpdateTracking` is a `track`
action carrying exactly the selected, non-empty season list — the
untrack branch is unreachable via the enabled button. -/
theorem confirmEnabled_implies_track
    (isUpdating isTracked : Bool) (selectedSeasons : List Nat)
    (h : confirmButtonDisabled isUpdating selectedSeasons = false) :
    (handleUpdateTracking .series isTracked selectedSeasons).action = .track
    ∧ (handleUpdateTracking .series isTracked selectedSeasons).seasons
        = some selectedSeasons
    ∧ selectedSeasons ≠ [] := by
  have hlen : selectedSeasons.length ≠ 0 := by
    simp only [confirmButtonDisabled, Bool.or_eq_false_iff] at h
    simpa using h.2
  have hne : selectedSeasons ≠ [] := by
    intro hnil; exact hlen (by simp [hnil])
  cases isTracked <;>
    simp [handleUpdateTracking, hlen, hne]

/-- Witness for `confirmEnabled_implies_track` with selection `[1]`. -/
theorem confirmEnabled_implies_track_witness :
    (handleUpdateTracking .series true [1]).action = .track
    ∧ (handleUpdateTracking .series true [1]).seasons = some [1]
    ∧ ([1] : List Nat) ≠ [] :=
  confirmEnabled_implies_track false true [1] (by decide)

/-- C10: the season-selection toggle is an involution on the
selected-season set: one click on `s` adds `s` exactly when it was
absent and removes it exactly when it was present, leaves membership of
every other season unchanged, and two successive clicks on `s` restore
the original selection set. -/
theorem toggleSeason_involutive (prev : List Nat) (s x : Nat) :
    (s ∉ prev → toggleSeason s prev = prev ++ [s])
    ∧ (s ∈ prev → s ∉ toggleSeason s prev)
    ∧ (x ≠ s → (x ∈ toggleSeason s prev ↔ x ∈ prev))
    ∧ (x ∈ toggleSeason s (toggleSeason s prev) ↔ x ∈ prev) := by
  refine ⟨?_, ?_, ?_, ?_⟩
  · intro h
    simp [toggleSeason, h]
  · intro hs
    simp [toggleSeason, hs, List.mem_filter]
  · intro hx
    by_cases hs : s ∈ prev <;>
      simp [toggleSeason, hs, hx, List.mem_filter, List.mem_append]
  · by_cases hs : s ∈ prev <;> by_cases hxs : x = s <;>
      simp [toggleSeason, hs, hxs, List.mem_filter, List.mem_append]

/-- Witness for `toggleSeason_involutive` on selection `[1, 3]` and
season 2. -/
theorem toggleSeason_involutive_witness :
    toggleSeason 2 [1, 3] = [1, 3, 2]
    ∧ (2 ∉ toggleSeason 2 [1, 2, 3])
    ∧ ((1 : Nat) ∈ toggleSeason 2 [1, 3] ↔ 1 ∈ ([1, 3] : List Nat))
    ∧ ((3 : Nat) ∈ toggleSeason 2 (toggleSeason 2 [1, 3])
        ↔ 3 ∈ ([1, 3] : List Nat)) :=
  ⟨(toggleSeason_involutive [1, 3] 2 1).1 (by decide),
   (toggleSeason_involutive [1, 2, 3] 2 1).2.1 (by decide),
   (toggleSeason_involutive [1, 3] 2 1).2.2.1 (by decide),
   (toggleSeason_involutive [1, 3] 2 3).2.2.2⟩

/-- C4: when a click opens a new window whose host matches the ad-domain
set, the window is closed and the triggering click is retried exactly
once — the step performs exactly two clicks, never more — and the
attempt fails with `AdInterceptionExceeded` exactly when the retried
click again opens an ad window. -/
theorem adWindow_retriesClickExactlyOnce (adDomains : List String)
    (observe : Nat → ClickObservation) (host : String)
    (h0 : observe 0 = .newWindow host)
    (hAd : host ∈ adDomains) :
    (clickStep adDomains observe).2 = 2
    ∧ ((clickStep adDomains observe).1 = .adInterceptionExceeded ↔
        ∃ host', observe 1 = .newWindow host' ∧ host' ∈ adDomains)
    ∧ (∀ obs : Nat → ClickObservation, (clickStep adDomains obs).2 ≤ 2) := by
  refine ⟨?_, ?_, ?_⟩
  · cases h1 : observe 1 with
    | noWindow => simp [clickStep, h0, hAd, h1]
    | newWindow host' =>
        by_cases h' : host' ∈ adDomains <;>
          simp [clickStep, h0, hAd, h1, h']
  · cases h1 : observe 1 with
    | noWindow => simp [clickStep, h0, hAd, h1]
    | newWindow host' =>
        by_cases h' : host' ∈ adDomains <;>
          simp [clickStep, h0, hAd, h1, h']
  · intro obs
    cases hq : obs 0 with
    | noWindow => simp [clickStep, hq]
    | newWindow h =>
        by_cases hh : h ∈ adDomains
        · cases h1 : obs 1 with
          | noWindow => simp [clickStep, hq, hh, h1]
          | newWindow h' =>
              by_cases hh' : h' ∈ adDomains <;>
                simp [clickStep, hq, hh, h1, hh']
        · simp [clickStep, hq, hh]

/-- Witness for `adWindow_retriesClickExactlyOnce`: the first click
opens an ad window on `obqj2.com`, the retried click opens no window. -/
theorem adWindow_retriesClickExactlyOnce_witness :
    (clickStep ["obqj2.com", "68s8.com"]
        (fun i => if i = 0 then .newWindow "obqj2.com" else .noWindow)).2 = 2
    ∧ ((clickStep ["obqj2.com", "68s8.com"]
        (fun i => if i = 0 then .newWindow "obqj2.com" else .noWindow)).1
          = .adInterceptionExceeded ↔
        ∃ host', (fun i => if i = 0 then ClickObservation.newWindow "obqj2.com"
            else .noWindow) 1 = .newWindow host'
          ∧ host' ∈ ["obqj2.com", "68s8.com"]) :=
  ⟨(adWindow_retriesClickExactlyOnce ["obqj2.com", "68s8.com"]
      (fun i => if i = 0 then .newWindow "obqj2.com" else .noWindow)
      "obqj2.com" rfl (by decide)).1,
   (adWindow_retriesClickExactlyOnce ["obqj2.com", "68s8.com"]
      (fun i => if i = 0 then .newWindow "obqj2.com" else .noWindow)
      "obqj2.com" rfl (by decide)).2.1⟩

/-- C5: with the short-circuit marker present after Gate1, the machine
transitions directly to `LinkExtracted` (variant B) and `Gate2Pending`
is never entered: it appears in no run trace from `Start`, and the
state after `Gate1Pending` is `ShortCircuitDetected`. -/
theorem shortCircuit_skipsGate2 (n : Nat) :
    RState.gate2Pending ∉ rTrace true .start n
    ∧ rStep true .gate1Pending = .shortCircuitDetected
    ∧ rStep true .shortCircuitDetected = .linkExtracted := by
  refine ⟨?_, rfl, rfl⟩
  have step : ∀ t : RState, rStep true t ≠ .gate2Pending := by
    intro t; cases t <;> simp [rStep]
  have main : ∀ (m : Nat) (s : RState), s ≠ .gate2Pending →
      RState.gate2Pending ∉ rTrace true s m := by
    intro m
    induction m with
    | zero =>
        intro s hs h
        exact hs (List.mem_singleton.mp h).symm
    | succ k ih =>
        intro s hs h
        rcases List.mem_cons.mp h with h | h
        · exact hs h.symm
        · exact ih (rStep true s) (step s) h
  exact main n .start (by decide)

/-- Appending rows preserves an already-present URL. -/
theorem hasUrl_upsert_mono (catalog : List EpisodeRow)
    (d : EpisodeDescriptor) (u : String) (h : hasUrl catalog u = true) :
    hasUrl (upsertEpisode catalog d) u = true := by
  unfold upsertEpisode
  by_cases hc : catalog.any (fun e => e.url == d.url)
  · rw [if_pos hc]
    exact h
  · rw [if_neg hc]
    have h' : catalog.any (fun e => e.url == u) = true := h
    simp [hasUrl, List.any_append, h']

/-- After upserting descriptor `d`, its URL is present in the
catalog. -/
theorem hasUrl_upsert_self (catalog : List EpisodeRow)
    (d : EpisodeDescriptor) :
    hasUrl (upsertEpisode catalog d) d.url = true := by
  unfold upsertEpisode
  by_cases hc : catalog.any (fun e => e.url == d.url)
  · rw [if_pos hc]
    exact hc
  · rw [if_neg hc]
    simp [hasUrl, List.any_append]

/-- A detection run preserves an already-present URL. -/
theorem hasUrl_detect_mono (observed : List EpisodeDescriptor) :
    ∀ (catalog : List EpisodeRow) (u : String),
      hasUrl catalog u = true →
      hasUrl (detectEpisodes catalog observed) u = true := by
  induction observed with
  | nil => intro c u h; simpa [detectEpisodes] using h
  | cons d ds ih =>
      intro c u h
      simp only [detectEpisodes, List.foldl_cons]
      exact ih _ _ (hasUrl_upsert_mono _ _ _ h)

/-- After a detection run, every observed descriptor's URL is in the
catalog. -/
theorem hasUrl_detect_covers (observed : List EpisodeDescriptor) :
    ∀ (catalog : List EpisodeRow) (d : EpisodeDescriptor), d ∈ observed →
      hasUrl (detectEpisodes catalog observed) d.url = true := by
  induction observed with
  | nil => intro _ _ hd; cases hd
  | cons e ds ih =>
      intro c d hd
      simp only [detectEpisodes, List.foldl_cons]
      rcases List.mem_cons.mp hd with rfl | hd'
      · exact hasUrl_detect_mono ds _ _ (hasUrl_upsert_self c d)
      · exact ih _ _ hd'

/-- Upserting a descriptor whose URL is already present is a no-op. -/
theorem upsert_eq_of_hasUrl (catalog : List EpisodeRow)
    (d : EpisodeDescriptor) (h : hasUrl catalog d.url = true) :
    upsertEpisode catalog d = catalog := by
  unfold upsertEpisode
  rw [if_pos (show catalog.any (fun e => e.url == d.url) = true from h)]

/-- A detection run over descriptors whose URLs are all already present
leaves the catalog unchanged. -/
theorem detect_eq_of_covered (catalog : List EpisodeRow) :
    ∀ observed : List EpisodeDescriptor,
      (∀ d ∈ observed, hasUrl catalog d.url = true) →
      detectEpisodes catalog observed = catalog := by
  intro observed
  induction observed with
  | nil => intro _; rfl
  | cons d ds ih =>
      intro h
      simp only [detectEpisodes, List.foldl_cons,
        upsert_eq_of_hasUrl catalog d (h d (by simp))]
      exact ih (fun e he => h e (by simp [he]))

/-- One upsert preserves uniqueness of rows by source URL. -/
theorem uniqueByUrl_upsert (catalog : List EpisodeRow)
    (d : EpisodeDescriptor) (h : UniqueByUrl catalog) :
    UniqueByUrl (upsertEpisode catalog d) := by
  unfold upsertEpisode
  by_cases hc : catalog.any (fun e => e.url == d.url)
  · rw [if_pos hc]
    exact h
  · rw [if_neg hc]
    have hc' : catalog.any (fun e => e.url == d.url) = false :=
      Bool.eq_false_iff.mpr hc
    intro u
    rw [List.filter_append, List.length_append]
    by_cases hu : d.url = u
    · subst hu
      have hnil : catalog.filter (fun e => e.url == d.url) = [] := by
        rw [List.filter_eq_nil_iff]
        exact fun e he => List.any_eq_false.mp hc' e he
      rw [hnil]
      simp
    · have hone :
          List.filter (fun e : EpisodeRow => e.url == u)
            [⟨d.url, d.seasonNumber, d.episodeNumber, d.title, false⟩]
            = [] := by
        simp [hu]
      rw [hone]
      simpa using h u

/-- A detection run preserves uniqueness of rows by source URL. -/
theorem uniqueByUrl_detect (observed : List EpisodeDescriptor) :
    ∀ catalog : List EpisodeRow, UniqueByUrl catalog →
      UniqueByUrl (detectEpisodes catalog observed) := by
  induction observed with
  | nil => intro c h; exact h
  | cons d ds ih =>
      intro c h
      simp only [detectEpisodes, List.foldl_cons]
      exact ih _ (uniqueByUrl_upsert c d h)

/-- C2: episode change detection is idempotent: a detection run
preserves uniqueness of Episode rows by source URL (unique-key upsert
semantics), and re-running detection against the unchanged observed set
leaves the catalog exactly as it was after the first run — no duplicate
rows are created. -/
theorem changeDetection_idempotent
    (catalog : List EpisodeRow) (observed : List EpisodeDescriptor) :
    (UniqueByUrl catalog → UniqueByUrl (detectEpisodes catalog observed))
    ∧ detectEpisodes (detectEpisodes catalog observed) observed
        = detectEpisodes catalog observed :=
  ⟨fun h => uniqueByUrl_detect observed catalog h,
   detect_eq_of_covered _ observed
     (fun d hd => hasUrl_detect_covers observed catalog d hd)⟩

/-- Witness for `changeDetection_idempotent` on an empty catalog and a
single observed descriptor. -/
theorem changeDetection_idempotent_witness :
    UniqueByUrl (detectEpisodes []
      [⟨1, 1, "Ep 1", "http://u/ep1"⟩, ⟨1, 2, "Ep 2", "http://u/ep2"⟩])
    ∧ detectEpisodes (detectEpisodes []
        [⟨1, 1, "Ep 1", "http://u/ep1"⟩, ⟨1, 2, "Ep 2", "http://u/ep2"⟩])
        [⟨1, 1, "Ep 1", "http://u/ep1"⟩, ⟨1, 2, "Ep 2", "http://u/ep2"⟩]
      = detectEpisodes []
        [⟨1, 1, "Ep 1", "http://u/ep1"⟩, ⟨1, 2, "Ep 2", "http://u/ep2"⟩] :=
  ⟨(changeDetection_idempotent []
      [⟨1, 1, "Ep 1", "http://u/ep1"⟩, ⟨1, 2, "Ep 2", "http://u/ep2"⟩]).1
      (fun u => by simp),
   (changeDetection_idempotent []
      [⟨1, 1, "Ep 1", "http://u/ep1"⟩, ⟨1, 2, "Ep 2", "http://u/ep2"⟩]).2⟩

/-- C1: the submission path is idempotent and preserves the
at-most-one-active invariant: if a non-terminal DownloadRecord exists
for the target the call is a no-op making zero `addLink` calls;
submission preserves the at-most-one-active invariant; and two
successive submissions for the same fresh target make exactly one
external `addLink` call in total. -/
theorem submission_dedup_atMostOneActive
    (records : List DownloadRecord) (t : Nat) :
    (hasActiveRecord records t = true →
      submitDownload records t = (records, 0))
    ∧ (AtMostOneActive records → AtMostOneActive (submitDownload records t).1)
    ∧ (hasActiveRecord records t = false →
        (submitDownload records t).2
          + (submitDownload (submitDownload records t).1 t).2 = 1) := by
  refine ⟨?_, ?_, ?_⟩
  · intro h
    simp [submitDownload, h]
  · intro hinv
    by_cases h : hasActiveRecord records t
    · simpa [submitDownload, h] using hinv
    · intro t'
      have hrec : (submitDownload records t).1
          = records ++ [⟨t, .pending⟩] := by
        simp [submitDownload, h]
      rw [hrec, List.filter_append, List.length_append]
      by_cases htt : t = t'
      · subst htt
        have h' : records.any
            (fun r => r.target == t && r.status.isNonTerminal) = false :=
          Bool.eq_false_iff.mpr h
        have hnil : records.filter
            (fun r => r.target == t && r.status.isNonTerminal) = [] := by
          rw [List.filter_eq_nil_iff]
          exact fun r hr => List.any_eq_false.mp h' r hr
        rw [hnil]
        simp [DownloadStatus.isNonTerminal]
      · have hone : List.filter
            (fun r : DownloadRecord => r.target == t' && r.status.isNonTerminal)
            [⟨t, .pending⟩] = [] := by
          simp [htt]
        rw [hone]
        simpa using hinv t'
  · intro h
    have h1 : submitDownload records t = (records ++ [⟨t, .pending⟩], 1) := by
      simp [submitDownload, h]
    have h2 : hasActiveRecord (records ++ [⟨t, .pending⟩]) t = true := by
      simp [hasActiveRecord, List.any_append, DownloadStatus.isNonTerminal]
    rw [h1]
    simp [submitDownload, h2]

/-- Witness for `submission_dedup_atMostOneActive`: a pending record for
target 7 makes a submission a no-op; starting from an empty record list
two submissions for target 7 make exactly one `addLink` call. -/
theorem submission_dedup_atMostOneActive_witness :
    submitDownload [⟨7, .pending⟩] 7 = ([⟨7, .pending⟩], 0)
    ∧ AtMostOneActive (submitDownload [] 7).1
    ∧ (submitDownload [] 7).2
        + (submitDownload (submitDownload [] 7).1 7).2 = 1 :=
  ⟨(submission_dedup_atMostOneActive [⟨7, .pending⟩] 7).1 (by decide),
   (submission_dedup_atMostOneActive [] 7).2.1 (fun t => by simp),
   (submission_dedup_atMostOneActive [] 7).2.2 (by decide)⟩

/-- Bucket lookup on a cons cell. -/
theorem seasonBucket_cons (x : Nat × List Episode)
    (l : List (Nat × List Episode)) (s : Nat) :
    seasonBucket (x :: l) s = if x.1 = s then x.2 else seasonBucket l s := by
  by_cases hx : x.1 = s <;> simp [seasonBucket, hx]

/-- `pushEpisode` keeps the pair's key. -/
theorem pushEpisode_fst (e : Episode) (p : Nat × List Episode) :
    (pushEpisode e p).1 = p.1 := by
  unfold pushEpisode
  split <;> rfl

/-- `pushEpisode` on the pair keyed by the episode's season. -/
theorem pushEpisode_eq_of (e : Episode) (p : Nat × List Episode)
    (h : p.1 = e.season) : pushEpisode e p = (p.1, p.2 ++ [e]) := by
  unfold pushEpisode
  rw [if_pos (by simpa using h)]

/-- `pushEpisode` on a pair with a different key. -/
theorem pushEpisode_eq_of_ne (e : Episode) (p : Nat × List Episode)
    (h : ¬ p.1 = e.season) : pushEpisode e p = p := by
  unfold pushEpisode
  rw [if_neg (by simpa using h)]

/-- Key lookup on a cons cell. -/
theorem hasSeasonKey_cons (q : Nat × List Episode)
    (l : List (Nat × List Episode)) (s : Nat) :
    hasSeasonKey (q :: l) s = (q.1 == s || hasSeasonKey l s) := by
  simp [hasSeasonKey]

/-- A grouping with no pair keyed `s` has an empty bucket at `s`. -/
theorem seasonBucket_eq_nil (l : List (Nat × List Episode)) (s : Nat)
    (h : hasSeasonKey l s = false) : seasonBucket l s = [] := by
  have hf : l.find? (fun p => p.1 == s) = none :=
    List.find?_eq_none.mpr (fun x hx => List.any_eq_false.mp h x hx)
  simp [seasonBucket, hf]

/-- Bucket lookup after pushing `e` onto the bucket of its season. -/
theorem seasonBucket_map_push (e : Episode) (s : Nat)
    (acc : List (Nat × List Episode)) :
    seasonBucket (acc.map (pushEpisode e)) s
      = if e.season = s then
          (if hasSeasonKey acc s then seasonBucket acc s ++ [e] else [])
        else seasonBucket acc s := by
  induction acc with
  | nil =>
      by_cases hes : e.season = s <;> simp [seasonBucket, hasSeasonKey, hes]
  | cons q rest ih =>
      by_cases hq : q.1 = s <;> by_cases hqe : q.1 = e.season
      · have hes : e.season = s := hqe.symm.trans hq
        simp [List.map_cons, seasonBucket_cons, hasSeasonKey_cons,
          pushEpisode_eq_of e q hqe, hq, hes]
      · have hes : ¬ e.season = s := fun hh => hqe (hq.trans hh.symm)
        simp [List.map_cons, seasonBucket_cons,
          pushEpisode_eq_of_ne e q hqe, hq, hes]
      · have hes : ¬ e.season = s := fun hh => hq (hqe.trans hh)
        simp [List.map_cons, seasonBucket_cons,
          pushEpisode_eq_of e q hqe, hq, hes, ih]
      · simp [List.map_cons, seasonBucket_cons, hasSeasonKey_cons,
          pushEpisode_eq_of_ne e q hqe, hq, ih]

/-- Bucket lookup over an append. -/
theorem seasonBucket_append (l1 l2 : List (Nat × List Episode)) (s : Nat) :
    seasonBucket (l1 ++ l2) s
      = if hasSeasonKey l1 s then seasonBucket l1 s
        else seasonBucket l2 s := by
  induction l1 with
  | nil => simp [hasSeasonKey]
  | cons q rest ih =>
      by_cases hq : q.1 = s <;>
        simp [seasonBucket_cons, hasSeasonKey_cons, hq, ih]

/-- One grouping step appends `e` to the bucket of `e.season` and to no
other bucket. -/
theorem seasonBucket_addToSeason (acc : List (Nat × List Episode))
    (e : Episode) (s : Nat) :
    seasonBucket (addToSeason acc e) s
      = seasonBucket acc s ++ (if e.season = s then [e] else []) := by
  unfold addToSeason
  by_cases hany : hasSeasonKey acc e.season
  · rw [if_pos hany, seasonBucket_map_push]
    by_cases hes : e.season = s
    · rw [if_pos hes, if_pos hes,
        show hasSeasonKey acc s = true from hes ▸ hany, if_pos rfl]
    · rw [if_neg hes, if_neg hes, List.append_nil]
  · rw [if_neg hany, seasonBucket_append]
    by_cases hes : e.season = s
    · subst hes
      rw [if_neg hany, seasonBucket_eq_nil acc _ (Bool.eq_false_iff.mpr hany),
        seasonBucket_cons]
      simp
    · by_cases hs' : hasSeasonKey acc s
      · rw [if_pos hs', if_neg hes, List.append_nil]
      · rw [if_neg hs',
          seasonBucket_eq_nil acc _ (Bool.eq_false_iff.mpr hs'),
          if_neg hes, List.append_nil, seasonBucket_cons, if_neg hes]
        simp [seasonBucket]

/-- Folding the grouping step accumulates, per season, exactly the
episodes of that season in input order. -/
theorem seasonBucket_foldl (eps : List Episode) :
    ∀ (acc : List (Nat × List Episode)) (s : Nat),
      seasonBucket (eps.foldl addToSeason acc) s
        = seasonBucket acc s ++ eps.filter (fun e => e.season == s) := by
  induction eps with
  | nil => intro acc s; simp
  | cons e rest ih =>
      intro acc s
      rw [List.foldl_cons, ih, seasonBucket_addToSeason]
      by_cases hes : e.season = s
      · simp [List.filter_cons, hes, List.append_assoc]
      · simp [List.filter_cons, hes]

/-- One grouping step preserves well-formedness: every bucket holds only
episodes of its own season. -/
theorem wellFormed_addToSeason (acc : List (Nat × List Episode))
    (e : Episode) (h : ∀ p ∈ acc, ∀ x ∈ p.2, x.season = p.1) :
    ∀ p ∈ addToSeason acc e, ∀ x ∈ p.2, x.season = p.1 := by
  unfold addToSeason
  by_cases hany : hasSeasonKey acc e.season
  · rw [if_pos hany]
    intro p hp x hx
    rcases List.mem_map.mp hp with ⟨q, hq, rfl⟩
    by_cases hqe : q.1 = e.season
    · rw [pushEpisode_eq_of e q hqe] at hx ⊢
      rcases List.mem_append.mp hx with hx | hx
      · exact h q hq x hx
      · rw [List.mem_singleton.mp hx]
        exact hqe.symm
    · rw [pushEpisode_eq_of_ne e q hqe] at hx ⊢
      exact h q hq x hx
  · rw [if_neg hany]
    intro p hp x hx
    rcases List.mem_append.mp hp with hp | hp
    · exact h p hp x hx
    · rw [List.mem_singleton.mp hp] at hx ⊢
      rw [List.mem_singleton.mp hx]

/-- The grouping keeps only well-formed buckets. -/
theorem wellFormed_foldl (eps : List Episode) :
    ∀ acc : List (Nat × List Episode),
      (∀ p ∈ acc, ∀ x ∈ p.2, x.season = p.1) →
      ∀ p ∈ eps.foldl addToSeason acc, ∀ x ∈ p.2, x.season = p.1 := by
  induction eps with
  | nil => intro acc h; exact h
  | cons e rest ih =>
      intro acc h
      rw [List.foldl_cons]
      exact ih _ (wellFormed_addToSeason acc e h)

/-- Pushing an episode onto its season's bucket does not change the
keys. -/
theorem keys_map_push (e : Episode) (acc : List (Nat × List Episode)) :
    (acc.map (pushEpisode e)).map Prod.fst = acc.map Prod.fst := by
  induction acc with
  | nil => rfl
  | cons q rest ih =>
      rw [List.map_cons, List.map_cons, List.map_cons, pushEpisode_fst, ih]

/-- One grouping step preserves distinctness of the season keys. -/
theorem keysNodup_addToSeason (acc : List (Nat × List Episode))
    (e : Episode) (h : (acc.map Prod.fst).Nodup) :
    ((addToSeason acc e).map Prod.fst).Nodup := by
  unfold addToSeason
  by_cases hany : hasSeasonKey acc e.season
  · rw [if_pos hany, keys_map_push]
    exact h
  · rw [if_neg hany, List.map_append]
    have hnotin : e.season ∉ acc.map Prod.fst := by
      intro hmem
      rcases List.mem_map.mp hmem with ⟨p, hp, hp1⟩
      exact List.any_eq_false.mp (Bool.eq_false_iff.mpr hany) p hp
        (by simpa using hp1)
    refine List.Nodup.append h (List.nodup_singleton _) ?_
    intro a ha hb
    have hab : a = e.season := by simpa using hb
    rw [hab] at ha
    exact hnotin ha

/-- With distinct keys, pushing `e` onto its (present) season's bucket
adds exactly `e` to the concatenation of all buckets. -/
theorem flatMap_map_push (e : Episode) :
    ∀ acc : List (Nat × List Episode),
      (acc.map Prod.fst).Nodup →
      hasSeasonKey acc e.season = true →
      ((acc.map (pushEpisode e)).flatMap Prod.snd).Perm
        ((acc.flatMap Prod.snd) ++ [e]) := by
  intro acc
  induction acc with
  | nil => intro _ h; simp [hasSeasonKey] at h
  | cons q rest ih =>
      intro hnodup hany
      have hnodup' : (q.1 :: rest.map Prod.fst).Nodup := by
        rw [List.map_cons] at hnodup
        exact hnodup
      have hnd := List.nodup_cons.mp hnodup'
      by_cases hq : q.1 = e.season
      · have hrest : ∀ p ∈ rest, pushEpisode e p = p := by
          intro p hp
          refine pushEpisode_eq_of_ne e p ?_
          intro hpe
          exact hnd.1 (List.mem_map.mpr ⟨p, hp, (hpe.trans hq.symm)⟩)
        rw [List.map_cons, List.map_congr_left hrest, List.map_id',
          pushEpisode_eq_of e q hq, List.flatMap_cons, List.flatMap_cons]
        have hperm : (q.2 ++ ([e] ++ rest.flatMap Prod.snd)).Perm
            (q.2 ++ (rest.flatMap Prod.snd ++ [e])) :=
          List.Perm.append_left _ List.perm_append_comm
        rw [List.append_assoc, List.append_assoc]
        exact hperm
      · have hany' : hasSeasonKey rest e.season = true := by
          rcases List.any_eq_true.mp hany with ⟨x, hx, hpx⟩
          rcases List.mem_cons.mp hx with rfl | hx'
          · exact absurd (by simpa using hpx) hq
          · exact List.any_eq_true.mpr ⟨x, hx', hpx⟩
        rw [List.map_cons, pushEpisode_eq_of_ne e q hq,
          List.flatMap_cons, List.flatMap_cons]
        have hperm := List.Perm.append_left q.2 (ih hnd.2 hany')
        rw [List.append_assoc]
        exact hperm

/-- With distinct keys, one grouping step adds exactly `e` to the
concatenation of all buckets. -/
theorem flatMap_addToSeason (acc : List (Nat × List Episode))
    (e : Episode) (h : (acc.map Prod.fst).Nodup) :
    ((addToSeason acc e).flatMap Prod.snd).Perm
      ((acc.flatMap Prod.snd) ++ [e]) := by
  unfold addToSeason
  by_cases hany : hasSeasonKey acc e.season
  · rw [if_pos hany]
    exact flatMap_map_push e acc h hany
  · rw [if_neg hany]
    have heq : ((acc ++ [(e.season, [e])]).flatMap Prod.snd)
        = acc.flatMap Prod.snd ++ [e] := by
      simp
    rw [heq]

/-- The grouping is a permutation: folding the grouping step over the
episode list concatenates, across buckets, exactly the input
episodes. -/
theorem flatMap_foldl (eps : List Episode) :
    ∀ acc : List (Nat × List Episode),
      (acc.map Prod.fst).Nodup →
      ((eps.foldl addToSeason acc).flatMap Prod.snd).Perm
        ((acc.flatMap Prod.snd) ++ eps) := by
  induction eps with
  | nil => intro acc _; simp
  | cons e rest ih =>
      intro acc h
      rw [List.foldl_cons]
      have h1 := ih (addToSeason acc e) (keysNodup_addToSeason acc e h)
      have h2 : ((addToSeason acc e).flatMap Prod.snd ++ rest).Perm
          ((acc.flatMap Prod.snd ++ [e]) ++ rest) :=
        (flatMap_addToSeason acc e h).append_right rest
      have h3 := h1.trans h2
      simpa [List.append_assoc] using h3

/-- C8: the episodes page partitions the episode list by season — the
bucket of every season `s` is exactly the episodes whose own season is
`s` (in input order); every bucket of the grouping holds only episodes
of its key's season; the union of all buckets is a permutation of the
input list — and the page renders season groups in ascending season
order with each group's episodes in ascending `episode_number` order. -/
theorem episodesBySeason_partition_sorted
    (episodes : List Episode) (s : Nat) :
    seasonBucket (episodesBySeason episodes) s
      = episodes.filter (fun e => e.season == s)
    ∧ (∀ p ∈ episodesBySeason episodes, ∀ x ∈ p.2, x.season = p.1)
    ∧ ((episodesBySeason episodes).flatMap Prod.snd).Perm episodes
    ∧ ((renderedGroups episodes).map Prod.fst).Sorted (· ≤ ·)
    ∧ (∀ p ∈ renderedGroups episodes,
        p.2.Sorted (fun a b => a.episode_number ≤ b.episode_number)) := by
  haveI hTot : IsTotal (Nat × List Episode) (fun a b => a.1 ≤ b.1) :=
    ⟨fun a b => Nat.le_total a.1 b.1⟩
  haveI hTrans : IsTrans (Nat × List Episode) (fun a b => a.1 ≤ b.1) :=
    ⟨fun _ _ _ hab hbc => Nat.le_trans hab hbc⟩
  haveI hTot2 : IsTotal Episode
      (fun a b => a.episode_number ≤ b.episode_number) :=
    ⟨fun a b => Nat.le_total a.episode_number b.episode_number⟩
  haveI hTrans2 : IsTrans Episode
      (fun a b => a.episode_number ≤ b.episode_number) :=
    ⟨fun _ _ _ hab hbc => Nat.le_trans hab hbc⟩
  refine ⟨?_, ?_, ?_, ?_, ?_⟩
  · have := seasonBucket_foldl episodes [] s
    simpa [episodesBySeason, seasonBucket] using this
  · exact wellFormed_foldl episodes [] (by simp)
  · have := flatMap_foldl episodes [] (by simp)
    simpa [episodesBySeason] using this
  · have hkeys : (renderedGroups episodes).map Prod.fst
        = ((episodesBySeason episodes).insertionSort
            (fun a b => a.1 ≤ b.1)).map Prod.fst := by
      unfold renderedGroups
      rw [List.map_map]
      exact List.map_congr_left (fun p _ => rfl)
    rw [hkeys]
    exact List.Pairwise.map Prod.fst (fun a b h => h)
      (List.sorted_insertionSort _ _)
  · intro p hp
    rcases List.mem_map.mp hp with ⟨q, _, rfl⟩
    exact List.sorted_insertionSort _ _

/-- Witness for `episodesBySeason_partition_sorted` on a three-episode
list spanning two seasons. -/
theorem episodesBySeason_partition_sorted_witness :
    (∀ x ∈ ((2 : Nat),
        ([⟨1, 2, 2, "b", false⟩, ⟨3, 2, 1, "c", true⟩] : List Episode)).2,
      x.season = ((2 : Nat),
        ([⟨1, 2, 2, "b", false⟩, ⟨3, 2, 1, "c", true⟩] : List Episode)).1)
    ∧ ((2 : Nat),
        ([⟨3, 2, 1, "c", true⟩, ⟨1, 2, 2, "b", false⟩] : List Episode)).2.Sorted
        (fun a b => a.episode_number ≤ b.episode_number) :=
  ⟨(episodesBySeason_partition_sorted
      [⟨1, 2, 2, "b", false⟩, ⟨2, 1, 1, "a", false⟩, ⟨3, 2, 1, "c", true⟩]
      2).2.1
      ((2 : Nat), [⟨1, 2, 2, "b", false⟩, ⟨3, 2, 1, "c", true⟩]) (by decide),
   (episodesBySeason_partition_sorted
      [⟨1, 2, 2, "b", false⟩, ⟨2, 1, 1, "a", false⟩, ⟨3, 2, 1, "c", true⟩]
      2).2.2.2.2
      ((2 : Nat), [⟨3, 2, 1, "c", true⟩, ⟨1, 2, 2, "b", false⟩]) (by decide)⟩

end ASD
